import Mathlib

/-!
Verification of the job orchestration and progress-streaming layer of the
langgraph-photo-editor Electron main process (`PhotoEditorMain`): the job
registry, the progress parser (`handleProcessOutput`), the job state machine
(`updateJobProgress`), the process close handler, and `cancelJob`.

The TypeScript code is shallowly embedded: JavaScript strings become Lean
`String`, the duck-typed parsed JSON record becomes a structure of optional
fields, the jobs `Map` becomes an association list, and the JavaScript
builtins used by the code (`String.prototype.trim`, `split`, `includes`,
`startsWith`, `endsWith`, `toLowerCase`) are re-implemented below on
character lists with their ASCII semantics.  Filesystem reads and
`JSON.parse` are external effects / builtins and enter the model as explicit
parameters; a concrete parser for the worker's line protocol fragment is
provided for evaluating the model on concrete inputs.
-/

namespace PhotoEditor

/-- The opening brace character (written via its code point). -/
def lbrace : Char := Char.ofNat 123

/-- The closing brace character (written via its code point). -/
def rbrace : Char := Char.ofNat 125

/-- ASCII whitespace, as stripped by `String.prototype.trim`. -/
def isWsChar (c : Char) : Bool :=
  c == ' ' || c == '\t' || c == '\n' || c == '\r' || c == '\x0b' || c == '\x0c'

/-- Model of `s.trim()`: strip whitespace from both ends. -/
def jsTrim (s : String) : String :=
  String.mk (((s.data.dropWhile isWsChar).reverse.dropWhile isWsChar).reverse)

/-- `startsWithChars hay needle`: `needle` is an initial segment of `hay`. -/
def startsWithChars : List Char → List Char → Bool
  | _, [] => true
  | [], _ :: _ => false
  | a :: as, b :: bs => a == b && startsWithChars as bs

/-- Model of `s.startsWith(pre)`. -/
def jsStartsWith (s pre : String) : Bool :=
  startsWithChars s.data pre.data

/-- Model of `s.endsWith(suf)`. -/
def jsEndsWith (s suf : String) : Bool :=
  startsWithChars s.data.reverse suf.data.reverse

/-- Auxiliary for substring search. -/
def inclAux : List Char → List Char → Bool
  | [], needle => needle.isEmpty
  | h :: t, needle => startsWithChars (h :: t) needle || inclAux t needle

/-- Model of `s.includes(sub)`. -/
def jsIncludes (s sub : String) : Bool :=
  inclAux s.data sub.data

/-- Auxiliary for `split('\n')`. -/
def splitNlAux : List Char → List Char → List String
  | [], acc => [String.mk acc.reverse]
  | c :: cs, acc =>
    if c == '\n' then String.mk acc.reverse :: splitNlAux cs []
    else splitNlAux cs (c :: acc)

/-- Model of `s.split('\n')`. -/
def jsSplitNewline (s : String) : List String :=
  splitNlAux s.data []

/-- ASCII lower-casing of one character. -/
def asciiLowerChar (c : Char) : Char :=
  if 'A' ≤ c && c ≤ 'Z' then Char.ofNat (c.toNat + 32) else c

/-- Model of `s.toLowerCase()` on ASCII text. -/
def asciiLower (s : String) : String :=
  String.mk (s.data.map asciiLowerChar)

/-- Model of the artifact filter `/\.(jpg|jpeg|png|webp)$/i` used by the
close handler when scanning the output directory. -/
def isImageFile (f : String) : Bool :=
  let l := asciiLower f
  jsEndsWith l ".jpg" || jsEndsWith l ".jpeg" || jsEndsWith l ".png" ||
    jsEndsWith l ".webp"

/-! ## Data model (`interface ProcessingJob` / `ProcessingProgress`) -/

/-- Per-agent pipeline state: `'pending' | 'running' | 'completed' | 'error'`. -/
inductive AgentState where
  | pending
  | running
  | completed
  | error
  deriving DecidableEq

/-- Job status: `'pending' | 'running' | 'completed' | 'failed'`.  Note the
source type has no `cancelled` member. -/
inductive JobStatus where
  | pending
  | running
  | completed
  | failed
  deriving DecidableEq

/-- The fixed `agentStatus` record of a `ProcessingProgress`. -/
structure AgentStatus where
  analysis : AgentState
  background : AgentState
  gemini : AgentState
  imagemagick : AgentState
  qc : AgentState
  deriving DecidableEq

/-- A partial `agentStatus` carried by a progress event; `Object.assign`
merges the present fields into the job's record. -/
structure AgentStatusPatch where
  analysis : Option AgentState := none
  background : Option AgentState := none
  gemini : Option AgentState := none
  imagemagick : Option AgentState := none
  qc : Option AgentState := none
  deriving DecidableEq

/-- `interface ProcessingProgress`. -/
structure ProcessingProgress where
  stage : String
  message : String
  agentStatus : AgentStatus
  qualityScore : Option Int := none
  strategy : Option String := none
  deriving DecidableEq

/-- `interface ProcessingJob`.  The live `ChildProcess` handle is reduced to
the one bit the orchestrator logic reads: whether `job.process` is set. -/
structure ProcessingJob where
  id : String
  status : JobStatus
  inputPath : String
  outputPath : Option String := none
  progress : ProcessingProgress
  hasProcess : Bool := false
  deriving DecidableEq

/-- The duck-typed record produced by `JSON.parse` on one protocol line,
restricted to the fields `updateJobProgress` inspects.  An absent field is
`none`. -/
structure ProgressData where
  agentStatus : Option AgentStatusPatch := none
  stage : Option String := none
  message : Option String := none
  quality_score : Option Int := none
  strategy : Option String := none
  output_path : Option String := none
  success : Option Bool := none
  deriving DecidableEq

/-! ## Job state machine (`updateJobProgress`) -/

/-- Keys of the `agentStatus` record. -/
inductive AgentKey where
  | analysis
  | background
  | gemini
  | imagemagick
  | qc
  deriving DecidableEq

/-- `stageAgentMap`: the stage-label → agent-key lookup table. -/
def stageAgentMap (stage : String) : Option AgentKey :=
  if stage == "analysis" then some .analysis
  else if stage == "analysis_complete" then some .analysis
  else if stage == "gemini_editing" then some .gemini
  else if stage == "gemini_complete" then some .gemini
  else if stage == "imagemagick_optimization" then some .imagemagick
  else if stage == "background_removal" then some .background
  else if stage == "quality_control" then some .qc
  else none

/-- The substring policy deriving a status from a stage label:
`includes('complete')` → completed, `includes('failed')`/`includes('error')`
→ error, otherwise running. -/
def stageStatus (stage : String) : AgentState :=
  if jsIncludes stage "complete" then .completed
  else if jsIncludes stage "failed" || jsIncludes stage "error" then .error
  else .running

/-- Write one agent's state. -/
def setAgent (a : AgentStatus) (k : AgentKey) (v : AgentState) : AgentStatus :=
  match k with
  | .analysis => { a with analysis := v }
  | .background => { a with background := v }
  | .gemini => { a with gemini := v }
  | .imagemagick => { a with imagemagick := v }
  | .qc => { a with qc := v }

/-- `Object.assign(job.progress.agentStatus, progressData.agentStatus)`:
field-by-field merge, absent fields untouched. -/
def mergeAgentStatus (a : AgentStatus) (p : AgentStatusPatch) : AgentStatus where
  analysis := p.analysis.getD a.analysis
  background := p.background.getD a.background
  gemini := p.gemini.getD a.gemini
  imagemagick := p.imagemagick.getD a.imagemagick
  qc := p.qc.getD a.qc

/-- JavaScript truthiness of an optional string field (`undefined` and the
empty string are falsy). -/
def strTruthy : Option String → Bool
  | none => false
  | some s => s ≠ ""

/-- `updateJobProgress` as a pure transformer of one job.  Mirrors
`PhotoEditorMain.updateJobProgress` on a job present in the registry:
agent-status merge or stage-map update, then the independent field
overwrites, then `success:true` forcing `status = completed`. -/
def updateJobProgress (job : ProcessingJob) (d : ProgressData) : ProcessingJob :=
  let agents :=
    match d.agentStatus with
    | some p => mergeAgentStatus job.progress.agentStatus p
    | none =>
      if strTruthy d.stage then
        match stageAgentMap (d.stage.getD "") with
        | some k => setAgent job.progress.agentStatus k (stageStatus (d.stage.getD ""))
        | none => job.progress.agentStatus
      else job.progress.agentStatus
  let message := if strTruthy d.message then d.message.getD "" else job.progress.message
  let stage := if strTruthy d.stage then d.stage.getD "" else job.progress.stage
  let qualityScore :=
    match d.quality_score with
    | some q => some q
    | none => job.progress.qualityScore
  let strategy := if strTruthy d.strategy then d.strategy else job.progress.strategy
  let outputPath := if strTruthy d.output_path then d.output_path else job.outputPath
  let status := if d.success == some true then JobStatus.completed else job.status
  { job with
      status := status
      outputPath := outputPath
      progress :=
        { stage := stage
          message := message
          agentStatus := agents
          qualityScore := qualityScore
          strategy := strategy } }

/-! ## Close handler (`childProcess.on('close', ...)`) -/

/-- The head of `files.filter(isImageFile)` produced by the best-effort
output-directory scan; `readdir = none` models `fs.readdirSync` throwing
(the path is not a directory), which the handler catches. -/
def firstImage (readdir : Option (List String)) : Option String :=
  match readdir with
  | none => none
  | some files =>
    match files.filter isImageFile with
    | [] => none
    | f :: _ => some f

/-- The `close` handler: `job.status = code === 0 ? 'completed' : 'failed'`,
clear the process handle, and on success refine `outputPath` to the first
discovered image file.  `code = none` models a `null` exit code (killed by
signal). -/
def onClose (job : ProcessingJob) (code : Option Int)
    (readdir : Option (List String)) : ProcessingJob :=
  let job1 := { job with
    status := if code == some 0 then JobStatus.completed else JobStatus.failed
    hasProcess := false }
  if code == some 0 then
    match job.outputPath with
    | some dir =>
      match firstImage readdir with
      | some f => { job1 with outputPath := some (dir ++ "/" ++ f) }
      | none => job1
    | none => job1
  else job1

/-! ## Job registry (`private jobs: Map<string, ProcessingJob>`) -/

/-- The jobs map as an association list. -/
abbrev Registry := List (String × ProcessingJob)

/-- `this.jobs.get(id)`. -/
def jobsGet : Registry → String → Option ProcessingJob
  | [], _ => none
  | (k, v) :: rest, id => if k == id then some v else jobsGet rest id

/-- `this.jobs.set(id, job)`: replace the binding if present, else append. -/
def jobsSet : Registry → String → ProcessingJob → Registry
  | [], id, j => [(id, j)]
  | (k, v) :: rest, id, j =>
    if k == id then (id, j) :: rest else (k, v) :: jobsSet rest id j

/-! ## `cancelJob` -/

/-- `PhotoEditorMain.cancelJob`.  Returns the boolean result together with
the registry after the call.  `killOk` models whether `process.kill` throws:
when it throws, the `catch` returns `false` before any state mutation.  Note
the source sets `status = 'failed'` (there is no cancelled status) and does
not clear or mark the process binding. -/
def cancelJob (r : Registry) (jobId : String) (killOk : Bool) :
    Bool × Registry :=
  match jobsGet r jobId with
  | none => (false, r)
  | some job =>
    if !job.hasProcess then (false, r)
    else if killOk then
      let job1 := { job with
        status := JobStatus.failed
        progress := { job.progress with message := "Processing cancelled by user" } }
      (true, jobsSet r jobId job1)
    else (false, r)

/-! ## `startProcessing` up to and including the spawn -/

/-- The synchronous errors `startProcessing` can throw. -/
inductive StartError where
  | emptyInput
  | inputNotFound (p : String)
  | spawnFailure
  deriving DecidableEq

/-- The freshly created job record (status pending, initial progress). -/
def initialJob (jobId inputPath : String) : ProcessingJob where
  id := jobId
  status := JobStatus.pending
  inputPath := inputPath
  progress :=
    { stage := "initializing"
      message := "Starting processing..."
      agentStatus :=
        { analysis := .pending, background := .pending, gemini := .pending
          imagemagick := .pending, qc := .pending } }

/-- `PhotoEditorMain.startProcessing` up to the spawn, as a registry
transformer.  Filesystem checks and the spawn are external effects and enter
as the booleans `pathExists` and `spawnOk`; the computed output directory
enters as `outputDir`.  Returns the registry after the call together with
either the new job id or the synchronous error thrown. -/
def startProcessing (r : Registry) (inputPath outputDir : String)
    (pathExists spawnOk : Bool) (newId : String) :
    Registry × Except StartError String :=
  if inputPath == "" || jsTrim inputPath == "" then
    (r, .error .emptyInput)
  else if !pathExists then
    (r, .error (.inputNotFound inputPath))
  else
    let job := { initialJob newId inputPath with outputPath := some outputDir }
    if spawnOk then
      (jobsSet r newId { job with status := JobStatus.running, hasProcess := true },
       .ok newId)
    else
      (jobsSet r newId { job with status := JobStatus.failed },
       .error .spawnFailure)

/-! ## Progress parser (`handleProcessOutput`) -/

/-- The lines of one stdout chunk: `output.split('\n').filter(l => l.trim())`. -/
def chunkLines (output : String) : List String :=
  (jsSplitNewline output).filter (fun l => jsTrim l ≠ "")

/-- One line of the loop body: the brace guard, then `JSON.parse` (the
builtin enters as the parameter `jsonParse`, returning `none` when it
throws), then `updateJobProgress`; a failed guard or parse only logs. -/
def handleLine (jsonParse : String → Option ProgressData)
    (job : ProcessingJob) (line : String) : ProcessingJob :=
  let t := jsTrim line
  if jsStartsWith t (String.mk [lbrace]) && jsEndsWith t (String.mk [rbrace]) then
    match jsonParse t with
    | some d => updateJobProgress job d
    | none => job
  else job

/-- `PhotoEditorMain.handleProcessOutput` on one stdout chunk: split the
chunk into lines and run each through `handleLine`.  The source keeps no
buffer between chunks. -/
def handleProcessOutput (jsonParse : String → Option ProgressData)
    (job : ProcessingJob) (output : String) : ProcessingJob :=
  (chunkLines output).foldl (handleLine jsonParse) job

/-- The event a line contributes, if any: the brace guard must pass and the
parse must succeed. -/
def lineEvent (jsonParse : String → Option ProgressData) (line : String) :
    Option ProgressData :=
  let t := jsTrim line
  if jsStartsWith t (String.mk [lbrace]) && jsEndsWith t (String.mk [rbrace]) then
    jsonParse t
  else none

/-! ## A concrete parser for the worker's line protocol

`JSON.parse` is a JavaScript builtin; `handleLine` takes it as a parameter.
To evaluate the model on concrete lines we implement the fragment of JSON
the worker protocol uses: one flat object whose values are strings, integer
numbers, booleans, or (for `agentStatus`) one nested flat object of
agent-state strings.  Anything outside this fragment parses to `none`. -/

/-- A leaf JSON value of the protocol fragment. -/
inductive JLeaf where
  | jstr (s : String)
  | jnum (n : Int)
  | jbool (b : Bool)
  deriving DecidableEq

/-- A top-level field value: a leaf or one flat object of leaves. -/
inductive JVal where
  | leaf (l : JLeaf)
  | obj (fields : List (String × JLeaf))
  deriving DecidableEq

/-- Skip ASCII whitespace. -/
def skipWs : List Char → List Char
  | [] => []
  | c :: cs => if isWsChar c then skipWs cs else c :: cs

/-- Body of a string literal up to the closing quote (the protocol's strings
contain no escapes; a backslash fails the parse). -/
def strLitAux : List Char → List Char → Option (String × List Char)
  | [], _ => none
  | c :: cs, acc =>
    if c == '"' then some (String.mk acc.reverse, cs)
    else if c == '\\' then none
    else strLitAux cs (c :: acc)

/-- Parse a quoted string literal. -/
def parseStrLit : List Char → Option (String × List Char)
  | [] => none
  | c :: cs => if c == '"' then strLitAux cs [] else none

/-- Take a maximal run of decimal digits. -/
def takeDigitsAux : List Char → List Char → List Char × List Char
  | [], acc => (acc.reverse, [])
  | c :: cs, acc =>
    if c.isDigit then takeDigitsAux cs (c :: acc) else (acc.reverse, c :: cs)

/-- Numeric value of a digit run. -/
def natOfDigits (ds : List Char) : Nat :=
  ds.foldl (fun n c => 10 * n + (c.toNat - 48)) 0

/-- Parse an (optionally negated) integer literal. -/
def parseNumLit : List Char → Option (Int × List Char)
  | '-' :: cs =>
    let (ds, rest) := takeDigitsAux cs []
    if ds.isEmpty then none else some (-(natOfDigits ds : Int), rest)
  | cs =>
    let (ds, rest) := takeDigitsAux cs []
    if ds.isEmpty then none else some ((natOfDigits ds : Int), rest)

/-- Parse `true` or `false`. -/
def parseBoolLit (cs : List Char) : Option (Bool × List Char) :=
  if startsWithChars cs "true".data then some (true, cs.drop 4)
  else if startsWithChars cs "false".data then some (false, cs.drop 5)
  else none

/-- Parse one leaf value. -/
def parseLeaf (cs : List Char) : Option (JLeaf × List Char) :=
  match parseStrLit cs with
  | some (s, r) => some (.jstr s, r)
  | none =>
    match parseBoolLit cs with
    | some (b, r) => some (.jbool b, r)
    | none => (parseNumLit cs).map fun p => (.jnum p.1, p.2)

/-- Parse the `"key": leaf` pairs of a flat object, after its opening
brace; the fuel bounds the number of pairs. -/
def parseLeafPairsAux : Nat → List Char → List (String × JLeaf) →
    Option (List (String × JLeaf) × List Char)
  | 0, _, _ => none
  | Nat.succ fuel, cs, acc =>
    match parseStrLit (skipWs cs) with
    | none => none
    | some (key, r1) =>
      match skipWs r1 with
      | [] => none
      | c :: r2 =>
        if c == ':' then
          match parseLeaf (skipWs r2) with
          | none => none
          | some (v, r3) =>
            match skipWs r3 with
            | [] => none
            | c2 :: r4 =>
              if c2 == ',' then parseLeafPairsAux fuel r4 ((key, v) :: acc)
              else if c2 == rbrace then some (((key, v) :: acc).reverse, r4)
              else none
        else none

/-- Parse one flat object of leaves. -/
def parseFlatObj (cs : List Char) : Option (List (String × JLeaf) × List Char) :=
  match cs with
  | [] => none
  | c :: r =>
    if c == lbrace then
      match skipWs r with
      | [] => none
      | c2 :: r2 =>
        if c2 == rbrace then some ([], r2)
        else parseLeafPairsAux (r.length + 1) r []
    else none

/-- Parse one top-level field value. -/
def parseVal (cs : List Char) : Option (JVal × List Char) :=
  match cs with
  | [] => none
  | c :: _ =>
    if c == lbrace then (parseFlatObj cs).map fun p => (.obj p.1, p.2)
    else (parseLeaf cs).map fun p => (.leaf p.1, p.2)

/-- Parse the `"key": value` pairs of the top-level object, after its
opening brace. -/
def parseValPairsAux : Nat → List Char → List (String × JVal) →
    Option (List (String × JVal) × List Char)
  | 0, _, _ => none
  | Nat.succ fuel, cs, acc =>
    match parseStrLit (skipWs cs) with
    | none => none
    | some (key, r1) =>
      match skipWs r1 with
      | [] => none
      | c :: r2 =>
        if c == ':' then
          match parseVal (skipWs r2) with
          | none => none
          | some (v, r3) =>
            match skipWs r3 with
            | [] => none
            | c2 :: r4 =>
              if c2 == ',' then parseValPairsAux fuel r4 ((key, v) :: acc)
              else if c2 == rbrace then some (((key, v) :: acc).reverse, r4)
              else none
        else none

/-- Parse the whole top-level object. -/
def parseTopObj (cs : List Char) : Option (List (String × JVal) × List Char) :=
  match skipWs cs with
  | [] => none
  | c :: r =>
    if c == lbrace then
      match skipWs r with
      | [] => none
      | c2 :: r2 =>
        if c2 == rbrace then some ([], r2)
        else parseValPairsAux (r.length + 1) r []
    else none

/-- The four agent-state strings of the protocol. -/
def agentStateOfString (s : String) : Option AgentState :=
  if s == "pending" then some .pending
  else if s == "running" then some .running
  else if s == "completed" then some .completed
  else if s == "error" then some .error
  else none

/-- Record one agent field in a patch; keys outside the five agents are
copied by `Object.assign` but never read, so the model drops them. -/
def setPatchField (p : AgentStatusPatch) (key : String) (v : AgentState) :
    AgentStatusPatch :=
  if key == "analysis" then { p with analysis := some v }
  else if key == "background" then { p with background := some v }
  else if key == "gemini" then { p with gemini := some v }
  else if key == "imagemagick" then { p with imagemagick := some v }
  else if key == "qc" then { p with qc := some v }
  else p

/-- Interpret one `agentStatus` field. -/
def applyPatchField (p : AgentStatusPatch) (kv : String × JLeaf) :
    Option AgentStatusPatch :=
  match kv.2 with
  | .jstr s => (agentStateOfString s).map fun v => setPatchField p kv.1 v
  | _ => none

/-- Interpret one top-level field into the progress record; unknown keys
are carried by `JSON.parse` but ignored by `updateJobProgress`. -/
def applyDataField (d : ProgressData) (kv : String × JVal) :
    Option ProgressData :=
  if kv.1 == "agentStatus" then
    match kv.2 with
    | .obj fs =>
      (fs.foldlM applyPatchField {}).map fun p => { d with agentStatus := some p }
    | _ => none
  else if kv.1 == "stage" then
    match kv.2 with | .leaf (.jstr s) => some { d with stage := some s } | _ => none
  else if kv.1 == "message" then
    match kv.2 with | .leaf (.jstr s) => some { d with message := some s } | _ => none
  else if kv.1 == "quality_score" then
    match kv.2 with | .leaf (.jnum n) => some { d with quality_score := some n } | _ => none
  else if kv.1 == "strategy" then
    match kv.2 with | .leaf (.jstr s) => some { d with strategy := some s } | _ => none
  else if kv.1 == "output_path" then
    match kv.2 with | .leaf (.jstr s) => some { d with output_path := some s } | _ => none
  else if kv.1 == "success" then
    match kv.2 with | .leaf (.jbool b) => some { d with success := some b } | _ => none
  else some d

/-- The concrete model of `JSON.parse` on one protocol line. -/
def parseLine (s : String) : Option ProgressData :=
  match parseTopObj s.data with
  | none => none
  | some (fields, rest) =>
    if (skipWs rest).isEmpty then fields.foldlM applyDataField {} else none

/-! ## Signals applied to one job after it is running -/

/-- What can reach a running job's state: a parsed structured record
(applied through `updateJobProgress`) or a process exit notification
(applied through the close handler). -/
inductive Signal where
  | event (d : ProgressData)
  | exited (code : Option Int) (readdir : Option (List String))

/-- Apply one signal to one job. -/
def applySignal (job : ProcessingJob) : Signal → ProcessingJob
  | .event d => updateJobProgress job d
  | .exited code readdir => onClose job code readdir

/-- Apply a sequence of signals. -/
def applyTrace (job : ProcessingJob) (sigs : List Signal) : ProcessingJob :=
  sigs.foldl applySignal job

/-- A terminal status of the embedded status type. -/
def JobStatus.isTerminal : JobStatus → Bool
  | .completed => true
  | .failed => true
  | _ => false

/-! ## Batch dispatch under a concurrency cap -/

/-- Modelled from the spec: the batch dispatcher's concurrency control lives
in the worker script `photo_editor.py`, which is not part of the sources
(the Electron main process spawns a single `batch` worker over the
directory).  Per §4.4 of the spec: one Job per enumerated file, at most
`cap` (default 3) Jobs hold a live process simultaneously, the remainder
queue in arrival order and start running as running Jobs reach a terminal
state.  Jobs are identified by their arrival index. -/
structure BatchState where
  queued : List Nat
  running : List Nat
  done : List Nat
  deriving DecidableEq

/-- Modelled from the spec: move queued jobs into running, in arrival order, until
`cap` jobs are running. -/
def fillRunning (cap : Nat) (s : BatchState) : BatchState :=
  let n := cap - s.running.length
  { queued := s.queued.drop n
    running := s.running ++ s.queued.take n
    done := s.done }

/-- Modelled from the spec: the initial batch of `files` enumerated inputs,
all queued in arrival order. -/
def batchInit (files : Nat) : BatchState where
  queued := List.range files
  running := []
  done := []

/-- Modelled from the spec: start a batch of `files` inputs under
concurrency cap `cap`. -/
def startBatch (cap files : Nat) : BatchState :=
  fillRunning cap (batchInit files)

/-- Modelled from the spec: the `i`-th running job reaches a terminal
state; a queued job then starts running.  An out-of-range `i` changes
nothing. -/
def finishAt (cap : Nat) (s : BatchState) (i : Nat) : BatchState :=
  match s.running[i]? with
  | none => s
  | some j =>
    fillRunning cap { queued := s.queued, running := s.running.eraseIdx i, done := j :: s.done }

/-- Modelled from the spec: run a sequence of completion choices. -/
def runSchedule (cap : Nat) (s : BatchState) (choices : List Nat) : BatchState :=
  choices.foldl (finishAt cap) s

/-! ## Concrete sample data used to evaluate the model -/

/-- A running single-file job with a bound process, as `startProcessing`
leaves it. -/
def sampleJob : ProcessingJob :=
  { initialJob "job_1" "/tmp/a.jpg" with
      status := JobStatus.running
      hasProcess := true
      outputPath := some "/tmp" }

/-- An explicit completion event: `{"success": true}`. -/
def successEvent : ProgressData := { success := some true }

/-- A sub-threshold completion report: `success:false` with a populated
`output_path`. -/
def qualityFailEvent : ProgressData :=
  { success := some false, output_path := some "/tmp/out.png" }

/-- The effect of a successful `cancelJob` on the job record. -/
def cancelledOf (job : ProcessingJob) : ProcessingJob :=
  { job with
      status := JobStatus.failed
      progress := { job.progress with message := "Processing cancelled by user" } }

/-! ## Helper lemmas -/

/-- The status written by `updateJobProgress` is `completed` exactly when
the event carries a truthy `success`, and is otherwise untouched. -/
theorem updateJobProgress_status (job : ProcessingJob) (d : ProgressData) :
    (updateJobProgress job d).status =
      if d.success == some true then JobStatus.completed else job.status := rfl

/-- The output path written by `updateJobProgress`. -/
theorem updateJobProgress_outputPath (job : ProcessingJob) (d : ProgressData) :
    (updateJobProgress job d).outputPath =
      if strTruthy d.output_path then d.output_path else job.outputPath := rfl

/-- The close handler's status depends only on the exit code. -/
theorem onClose_status (job : ProcessingJob) (code : Option Int)
    (rd : Option (List String)) :
    (onClose job code rd).status =
      if code == some 0 then JobStatus.completed else JobStatus.failed := by
  unfold onClose
  by_cases h : code == some 0
  · simp only [h, if_true]
    cases job.outputPath with
    | none => rfl
    | some dir =>
      cases firstImage rd with
      | none => rfl
      | some f => rfl
  · simp [h]

/-- Setting a key and then looking it up returns the new job. -/
theorem jobsGet_jobsSet (r : Registry) (id : String) (j : ProcessingJob) :
    jobsGet (jobsSet r id j) id = some j := by
  induction r with
  | nil => simp [jobsSet, jobsGet]
  | cons kv rest ih =>
    obtain ⟨k, v⟩ := kv
    by_cases h : k == id
    · simp [jobsSet, jobsGet, h]
    · simp [jobsSet, jobsGet, h, ih]

/-- One line of the output loop, phrased through the event it contributes. -/
theorem handleLine_eq (jp : String → Option ProgressData) (job : ProcessingJob)
    (line : String) :
    handleLine jp job line =
      match lineEvent jp line with
      | some d => updateJobProgress job d
      | none => job := by
  unfold handleLine lineEvent
  by_cases h : jsStartsWith (jsTrim line) (String.mk [lbrace]) &&
      jsEndsWith (jsTrim line) (String.mk [rbrace])
  · simp only [h, if_true]
  · simp [h]

/-- Folding the line handler over a line list is folding the state machine
over the valid events of those lines. -/
theorem foldl_handleLine_filterMap (jp : String → Option ProgressData)
    (ls : List String) (job : ProcessingJob) :
    ls.foldl (handleLine jp) job =
      (ls.filterMap (lineEvent jp)).foldl updateJobProgress job := by
  induction ls generalizing job with
  | nil => rfl
  | cons l rest ih =>
    rw [List.foldl_cons, handleLine_eq, List.filterMap_cons]
    cases h : lineEvent jp l with
    | none => simp only [ih]
    | some d => simp only [List.foldl_cons, ih]

/-- One signal either leaves the status alone or lands in a terminal
status. -/
theorem applySignal_status (job : ProcessingJob) (s : Signal) :
    (applySignal job s).status = job.status ∨
    (applySignal job s).status = JobStatus.completed ∨
    (applySignal job s).status = JobStatus.failed := by
  cases s with
  | event d =>
    simp only [applySignal, updateJobProgress_status]
    cases hb : d.success == some true with
    | true => exact Or.inr (Or.inl (by simp))
    | false => exact Or.inl (by simp)
  | exited code rd =>
    simp only [applySignal, onClose_status]
    cases hb : code == some 0 with
    | true => exact Or.inr (Or.inl (by simp))
    | false => exact Or.inr (Or.inr (by simp))

/-- Erasing an index never lengthens a list. -/
theorem eraseIdx_len_le (l : List α) (i : Nat) :
    (l.eraseIdx i).length ≤ l.length := by
  induction l generalizing i with
  | nil => simp [List.eraseIdx]
  | cons a t ih =>
    cases i with
    | zero => exact Nat.le_succ _
    | succ n => exact Nat.succ_le_succ (ih n)

/-- Filling the running set never pushes it above the cap. -/
theorem fillRunning_le (cap : Nat) (s : BatchState)
    (h : s.running.length ≤ cap) :
    (fillRunning cap s).running.length ≤ cap := by
  simp only [fillRunning, List.length_append, List.length_take]
  omega

/-- Finishing one running job preserves the cap. -/
theorem finishAt_running_le (cap : Nat) (s : BatchState) (i : Nat)
    (h : s.running.length ≤ cap) :
    (finishAt cap s i).running.length ≤ cap := by
  unfold finishAt
  split
  · exact h
  · exact fillRunning_le _ _ (Nat.le_trans (eraseIdx_len_le _ _) h)

/-- Every schedule preserves the cap. -/
theorem runSchedule_running_le (cap : Nat) (choices : List Nat) (s : BatchState)
    (h : s.running.length ≤ cap) :
    (runSchedule cap s choices).running.length ≤ cap := by
  induction choices generalizing s with
  | nil => exact h
  | cons c rest ih => exact ih _ (finishAt_running_le cap s c h)

/-- One step only ever removes a prefix of the queue. -/
theorem finishAt_queued_drop (cap : Nat) (s : BatchState) (i : Nat) :
    ∃ n, (finishAt cap s i).queued = s.queued.drop n := by
  unfold finishAt
  split
  · exact ⟨0, rfl⟩
  · exact ⟨_, rfl⟩

/-- Every schedule only ever removes a prefix of the queue: the running set is fed in
arrival order. -/
theorem runSchedule_queued_suffix (cap : Nat) (choices : List Nat)
    (s : BatchState) :
    ∃ n, (runSchedule cap s choices).queued = s.queued.drop n := by
  induction choices generalizing s with
  | nil => exact ⟨0, rfl⟩
  | cons c rest ih =>
    obtain ⟨n1, h1⟩ := finishAt_queued_drop cap s c
    obtain ⟨n2, h2⟩ := ih (finishAt cap s c)
    refine ⟨n1 + n2, ?_⟩
    show (runSchedule cap (finishAt cap s c) rest).queued = _
    rw [h2, h1, List.drop_drop]

/-! ## Claims -/

/-- Claim C1, counterexample: from a running job, the event `success:true`
sets status completed (a terminal completion), yet the subsequent exit
notification with the nonzero code 3 leaves the job not completed — the
exit code does downgrade the completion, so the claim as stated is false. -/
theorem C1_counterexample :
    (updateJobProgress sampleJob successEvent).status = JobStatus.completed ∧
    (onClose (updateJobProgress sampleJob successEvent) (some 3) none).status ≠
      JobStatus.completed := by
  decide

/-- Claim C1 as amended: after an event carrying `success:true` has set
Job.status = completed, a subsequent exit notification with a nonzero exit
code for that Job's process overwrites the status to failed — the close
handler applies `code === 0 ? completed : failed` unconditionally, so the
exit code does downgrade a completion established by an explicit success
event. -/
theorem C1_exit_code_downgrades_success (job : ProcessingJob) (d : ProgressData)
    (c : Int) (rd : Option (List String)) (hd : d.success = some true)
    (hc : c ≠ 0) :
    (updateJobProgress job d).status = JobStatus.completed ∧
    (onClose (updateJobProgress job d) (some c) rd).status = JobStatus.failed := by
  constructor
  · rw [updateJobProgress_status, hd]
    simp
  · rw [onClose_status]
    simp [hc]

/-- Claim C1, witness: the amended theorem evaluated at the sample running
job, the success event, and exit code 1. -/
theorem C1_exit_code_downgrades_success_witness :
    successEvent.success = some true ∧ (1 : Int) ≠ 0 ∧
    ((updateJobProgress sampleJob successEvent).status = JobStatus.completed ∧
     (onClose (updateJobProgress sampleJob successEvent) (some 1) none).status =
       JobStatus.failed) :=
  ⟨rfl, by decide,
    C1_exit_code_downgrades_success sampleJob successEvent 1 none rfl (by decide)⟩

/-- Claim C2, counterexample: the trace success-event-then-exit-code-2 moves
the job to the terminal status completed and then changes it to failed, so a
later exit notification does change a terminal status and the claimed
monotonicity is false. -/
theorem C2_counterexample :
    (applyTrace sampleJob [Signal.event successEvent]).status =
      JobStatus.completed ∧
    (applyTrace sampleJob
      [Signal.event successEvent, Signal.exited (some 2) none]).status =
      JobStatus.failed := by
  decide

/-- Claim C2 as amended: over every sequence of applied events and exit
notifications, the status either stays what it was or lands in completed or
failed — pending and running are never re-entered — but the two terminal
statuses are not absorbing: a later event or exit notification may move the
job between completed and failed (and the source has no cancelled status at
all). -/
theorem C2_status_changes_land_terminal (job : ProcessingJob)
    (sigs : List Signal) :
    (applyTrace job sigs).status = job.status ∨
    (applyTrace job sigs).status = JobStatus.completed ∨
    (applyTrace job sigs).status = JobStatus.failed := by
  induction sigs generalizing job with
  | nil => exact Or.inl rfl
  | cons s rest ih =>
    have hstep := applySignal_status job s
    show (applyTrace (applySignal job s) rest).status = job.status ∨
      (applyTrace (applySignal job s) rest).status = JobStatus.completed ∨
      (applyTrace (applySignal job s) rest).status = JobStatus.failed
    rcases ih (applySignal job s) with h | h | h
    · rw [h]
      exact hstep
    · exact Or.inr (Or.inl h)
    · exact Or.inr (Or.inr h)

/-- Claim C3, counterexample: cancelling the sample running job stores the
cancelled (failed) record, yet a late zero exit code — and equally a late
`success:true` event — overwrites that status to completed, so the claimed
race-safe no-op is false. -/
theorem C3_counterexample :
    jobsGet (cancelJob [("job_1", sampleJob)] "job_1" true).2 "job_1" =
      some (cancelledOf sampleJob) ∧
    (cancelledOf sampleJob).status = JobStatus.failed ∧
    (onClose (cancelledOf sampleJob) (some 0) none).status =
      JobStatus.completed ∧
    (updateJobProgress (cancelledOf sampleJob) successEvent).status =
      JobStatus.completed := by
  decide

/-- Claim C3 as amended: for a job with a live bound process,
`cancelJob` returns true, sends SIGTERM, and stores the job with the
terminal non-completed status failed and the message "Processing cancelled
by user"; however the binding is not marked cancelled, so a subsequent zero
exit code or late `success:true` event for that job's process does
overwrite the status to completed. -/
theorem C3_cancel_not_race_safe (r : Registry) (id : String)
    (job : ProcessingJob) (hg : jobsGet r id = some job)
    (hp : job.hasProcess = true) :
    (cancelJob r id true).1 = true ∧
    (cancelJob r id true).2 = jobsSet r id (cancelledOf job) ∧
    (cancelledOf job).status = JobStatus.failed ∧
    (cancelledOf job).progress.message = "Processing cancelled by user" ∧
    (onClose (cancelledOf job) (some 0) none).status = JobStatus.completed ∧
    (updateJobProgress (cancelledOf job) successEvent).status =
      JobStatus.completed := by
  have hc : cancelJob r id true = (true, jobsSet r id (cancelledOf job)) := by
    unfold cancelJob
    rw [hg]
    simp [hp, cancelledOf]
  refine ⟨by rw [hc], by rw [hc], rfl, rfl, ?_, ?_⟩
  · rw [onClose_status]
    decide
  · rw [updateJobProgress_status]
    simp [successEvent]

/-- Claim C3, witness: the amended theorem evaluated on a registry holding
the sample running job. -/
theorem C3_cancel_not_race_safe_witness :
    jobsGet [("job_1", sampleJob)] "job_1" = some sampleJob ∧
    sampleJob.hasProcess = true ∧
    ((cancelJob [("job_1", sampleJob)] "job_1" true).1 = true ∧
     (cancelJob [("job_1", sampleJob)] "job_1" true).2 =
       jobsSet [("job_1", sampleJob)] "job_1" (cancelledOf sampleJob) ∧
     (cancelledOf sampleJob).status = JobStatus.failed ∧
     (cancelledOf sampleJob).progress.message = "Processing cancelled by user" ∧
     (onClose (cancelledOf sampleJob) (some 0) none).status =
       JobStatus.completed ∧
     (updateJobProgress (cancelledOf sampleJob) successEvent).status =
       JobStatus.completed) :=
  ⟨by decide, rfl, C3_cancel_not_race_safe _ _ _ (by decide) rfl⟩

/-- Claim C4, counterexample: the structured record
`{"stage":"analysis_complete"}` split across the two chunks
`{"stage":"ana` and `lysis_complete"}` mutates nothing (both fragments are
treated as diagnostic text), although the same bytes in one chunk set
`agentStatus.analysis = completed`; the split record is discarded, so the
claimed cross-chunk reassembly is false. -/
theorem C4_counterexample :
    handleProcessOutput parseLine
      (handleProcessOutput parseLine sampleJob "\x7b\"stage\":\"ana")
      "lysis_complete\"\x7d" = sampleJob ∧
    (handleProcessOutput parseLine sampleJob
      ("\x7b\"stage\":\"ana" ++ "lysis_complete\"\x7d")).progress.agentStatus.analysis =
      AgentState.completed := by
  decide

/-- Claim C4 as amended: the output handler keeps no buffer between stream
chunks — each chunk is split into lines on its own, so processing chunk one
and then chunk two is exactly processing the line list of chunk one followed
by the line list of chunk two, and a structured record split across a chunk
boundary is never reassembled (its fragments are treated as diagnostic
text and discarded). -/
theorem C4_chunks_processed_independently
    (jsonParse : String → Option ProgressData) (job : ProcessingJob)
    (c1 c2 : String) :
    handleProcessOutput jsonParse (handleProcessOutput jsonParse job c1) c2 =
      (chunkLines c1 ++ chunkLines c2).foldl (handleLine jsonParse) job := by
  rw [List.foldl_append]
  rfl

/-- Claim C5: in the batch model (spec-modelled: the concurrency control
lives in the worker script, outside these sources), a batch of 10 inputs
under cap 3 never has more than 3 jobs running at any point of any
completion schedule, the queue is always consumed from the front in arrival
order, and the canonical schedule finishes with all 10 jobs done. -/
theorem C5_batch_cap_and_completion :
    (∀ choices : List Nat,
      (runSchedule 3 (startBatch 3 10) choices).running.length ≤ 3) ∧
    (∀ choices : List Nat, ∃ k,
      (runSchedule 3 (startBatch 3 10) choices).queued = (List.range 10).drop k) ∧
    runSchedule 3 (startBatch 3 10) (List.replicate 10 0) =
      { queued := [], running := [], done := [9, 8, 7, 6, 5, 4, 3, 2, 1, 0] } := by
  refine ⟨?_, ?_, by decide⟩
  · intro choices
    exact runSchedule_running_le 3 choices (startBatch 3 10) (by decide)
  · intro choices
    obtain ⟨n, h⟩ := runSchedule_queued_suffix 3 choices (startBatch 3 10)
    refine ⟨3 + n, ?_⟩
    rw [h]
    show (List.drop 3 (List.range 10)).drop n = (List.range 10).drop (3 + n)
    rw [List.drop_drop]

/-- Claim C6, counterexample: the sub-threshold completion event sets the
reported output path, but when the process then exits with the nonzero code
1 the final status is failed, not completed — the claim as stated (for any
exit) is false; it holds only for exit code 0. -/
theorem C6_counterexample :
    (updateJobProgress sampleJob qualityFailEvent).outputPath =
      some "/tmp/out.png" ∧
    (onClose (updateJobProgress sampleJob qualityFailEvent) (some 1) none).status =
      JobStatus.failed := by
  decide

/-- Claim C6 as amended: a completion event with `success:false` and a
populated `output_path` leaves the status untouched and records that path;
when the process then exits with code 0 and the best-effort artifact scan
finds no image file (the reported path is a file, so the directory read
fails), the final job is completed — not failed — with `outputPath` equal to
the reported `output_path`. -/
theorem C6_subthreshold_completion (job : ProcessingJob) (p : String)
    (rd : Option (List String)) (hp : p ≠ "") (hrd : firstImage rd = none) :
    (updateJobProgress job { success := some false, output_path := some p }).status =
      job.status ∧
    (updateJobProgress job { success := some false, output_path := some p }).outputPath =
      some p ∧
    (onClose (updateJobProgress job { success := some false, output_path := some p })
      (some 0) rd).status = JobStatus.completed ∧
    (onClose (updateJobProgress job { success := some false, output_path := some p })
      (some 0) rd).outputPath = some p := by
  have hout : (updateJobProgress job
      { success := some false, output_path := some p }).outputPath = some p := by
    rw [updateJobProgress_outputPath]
    simp [strTruthy, hp]
  refine ⟨by rw [updateJobProgress_status]; simp, hout, ?_, ?_⟩
  · rw [onClose_status]
    decide
  · simp [onClose, hout, hrd]

/-- Claim C6, witness: the amended theorem evaluated at the sample running
job with the reported path "/tmp/out.png", exit code 0, and a failing
directory read. -/
theorem C6_subthreshold_completion_witness :
    ("/tmp/out.png" : String) ≠ "" ∧ firstImage none = none ∧
    ((updateJobProgress sampleJob
        { success := some false, output_path := some "/tmp/out.png" }).status =
      sampleJob.status ∧
     (updateJobProgress sampleJob
        { success := some false, output_path := some "/tmp/out.png" }).outputPath =
      some "/tmp/out.png" ∧
     (onClose (updateJobProgress sampleJob
        { success := some false, output_path := some "/tmp/out.png" })
        (some 0) none).status = JobStatus.completed ∧
     (onClose (updateJobProgress sampleJob
        { success := some false, output_path := some "/tmp/out.png" })
        (some 0) none).outputPath = some "/tmp/out.png") :=
  ⟨by decide, rfl,
    C6_subthreshold_completion sampleJob "/tmp/out.png" none (by decide) rfl⟩

/-- Claim C7: for every job whose `agentStatus.analysis` starts pending,
the line `{"stage":"analysis"}` followed by the line
`{"stage":"analysis_complete"}` yields `agentStatus.analysis = completed`:
the stage label resolves through `stageAgentMap` and the substring policy
maps "analysis" to running and "analysis_complete" to completed. -/
theorem C7_analysis_stage_lines (job : ProcessingJob)
    (_h : job.progress.agentStatus.analysis = AgentState.pending) :
    (handleLine parseLine
      (handleLine parseLine job "\x7b\"stage\":\"analysis\"\x7d")
      "\x7b\"stage\":\"analysis_complete\"\x7d").progress.agentStatus.analysis =
    AgentState.completed := by
  rfl

/-- Claim C7, witness: the theorem evaluated at the freshly created job,
whose analysis agent is pending. -/
theorem C7_analysis_stage_lines_witness :
    (initialJob "job_1" "/tmp/a.jpg").progress.agentStatus.analysis =
      AgentState.pending ∧
    (handleLine parseLine
      (handleLine parseLine (initialJob "job_1" "/tmp/a.jpg")
        "\x7b\"stage\":\"analysis\"\x7d")
      "\x7b\"stage\":\"analysis_complete\"\x7d").progress.agentStatus.analysis =
    AgentState.completed :=
  ⟨rfl, C7_analysis_stage_lines (initialJob "job_1" "/tmp/a.jpg") rfl⟩

/-- Claim C8: processing a chunk of output lines equals folding the state
machine over exactly the valid structured events of those lines — a
malformed line (one failing the brace guard or the parse) contributes no
event and never mutates the job, whatever valid lines it is interleaved
with; only valid structured lines mutate job state. -/
theorem C8_only_valid_lines_mutate (jsonParse : String → Option ProgressData)
    (job : ProcessingJob) (output : String) :
    handleProcessOutput jsonParse job output =
      ((chunkLines output).filterMap (lineEvent jsonParse)).foldl
        updateJobProgress job :=
  foldl_handleLine_filterMap jsonParse (chunkLines output) job

/-- Claim C9: cancelling a job id that is absent from the registry or has
no live process bound returns false and leaves the registry — hence every
job's status and state — unchanged. -/
theorem C9_cancel_without_process (r : Registry) (id : String) (killOk : Bool)
    (h : ((jobsGet r id).all fun j => !j.hasProcess) = true) :
    cancelJob r id killOk = (false, r) := by
  unfold cancelJob
  cases hg : jobsGet r id with
  | none => rfl
  | some j =>
    rw [hg] at h
    simp only [Option.all_some] at h
    simp [h]

/-- Claim C9, witness: the theorem evaluated on a registry holding one
pending job with no bound process. -/
theorem C9_cancel_without_process_witness :
    ((jobsGet [("job_1", initialJob "job_1" "/tmp/a.jpg")] "job_1").all
      fun j => !j.hasProcess) = true ∧
    cancelJob [("job_1", initialJob "job_1" "/tmp/a.jpg")] "job_1" true =
      (false, [("job_1", initialJob "job_1" "/tmp/a.jpg")]) :=
  ⟨by decide, C9_cancel_without_process _ _ _ (by decide)⟩

/-- Claim C10: a start request whose input path is empty or all whitespace
fails synchronously with the empty-input error before any job is created
and before any spawn — the returned registry is the unchanged input
registry. -/
theorem C10_blank_input_rejected (r : Registry) (inputPath outputDir : String)
    (pathExists spawnOk : Bool) (newId : String) (h : jsTrim inputPath = "") :
    startProcessing r inputPath outputDir pathExists spawnOk newId =
      (r, Except.error StartError.emptyInput) := by
  unfold startProcessing
  rw [h]
  simp

/-- Claim C10, witness: the theorem evaluated on the whitespace-only input
path. -/
theorem C10_blank_input_rejected_witness :
    jsTrim " \t " = "" ∧
    startProcessing [] " \t " "/tmp" true true "job_1" =
      ([], Except.error StartError.emptyInput) :=
  ⟨by decide, C10_blank_input_rejected [] " \t " "/tmp" true true "job_1" (by decide)⟩

end PhotoEditor
